import Mathlib

/-!
# Verification of go-sysinfo's Windows host provider

Shallow embedding of `providers/windows/host_windows.go`:

* `getComputerNameEx` — the growing-buffer retrieval loop around
  `windows.GetComputerNameEx`, modelled over an arbitrary OS invocation
  closure and an explicit fuel bound (the `uint32` size variable strictly
  increases on every retry, so `2^32` steps of fuel always suffice).
* `newHost` — the fact aggregator: nine reader steps run in order over a
  `reader` error accumulator, producing a `HostInfo` record and an optional
  multi-error (the ordered list of collected errors).
* `Host.Info` / `Host.CPUTime` / `Host.Memory` — the host-handle accessors.

Go strings that the code manipulates character-wise are modelled as
`List Char` (`Str`); error values are modelled structurally so that
`errors.Is(err, types.ErrNotImplemented)` is a computable predicate on the
wrap chain (`fmt.Errorf` with `%w` keeps the chain, `%s` starts a fresh
leaf error).
-/

namespace GoSysinfo

/-- Go strings, modelled as their character sequences. -/
abbrev Str := List Char

/-! ## Error model

`types.ErrNotImplemented` is a sentinel created with `errors.New`.
`errors.Is(err, sentinel)` walks the `Unwrap` chain: it holds exactly when
the sentinel itself appears in the chain.  `fmt.Errorf` with `%w` produces
a wrapping error (chain preserved); with `%s` it produces a fresh leaf
error (chain broken). -/

/-- A Go error value: the `types.ErrNotImplemented` sentinel, a leaf error
(`errors.New` / `fmt.Errorf` without `%w`), or a `%w`-wrapping error whose
`msg` is its full formatted message. -/
inductive GoErr where
  | notImplemented
  | leaf (msg : String)
  | wrap (msg : String) (inner : GoErr)
  deriving DecidableEq, Repr

/-- Message of a Go error (`err.Error()`); a `wrap` stores its full
formatted message. Modelled from the spec: the `types.ErrNotImplemented`
sentinel (package `types`, not under `src/`) is `errors.New` of a fixed
message. -/
def GoErr.msg : GoErr → String
  | .notImplemented => "unimplemented"
  | .leaf m => m
  | .wrap m _ => m

/-- Model of `errors.Is(e, types.ErrNotImplemented)`: the sentinel appears in the
unwrap chain of `e`. -/
def errorsIsNotImplemented : GoErr → Bool
  | .notImplemented => true
  | .leaf _ => false
  | .wrap _ inner => errorsIsNotImplemented inner

/-! ## The growing-buffer caller: `getComputerNameEx`

```go
func getComputerNameEx(name uint32) (string, error) {
    size := uint32(64)
    for {
        buff := make([]uint16, size)
        err := stdwindows.GetComputerNameEx(name, &buff[0], &size)
        if err == nil {
            return syscall.UTF16ToString(buff[:size]), nil
        }
        if errors.Is(err, syscall.ERROR_MORE_DATA) {
            if size <= uint32(len(buff)) {
                return "", fmt.Errorf("windows.GetComputerNameEx returned ERROR_MORE_DATA, " +
                    "but data size should fit into buffer")
            } else {
                buff = make([]uint16, size)
                continue
            }
        }
        return "", fmt.Errorf("could not get windows FQDN: could not get windows.ComputerNamePhysicalDnsFullyQualified: %w", err)
    }
}
```

The OS call is modelled as a closure from the supplied buffer length (the
value of `size` going in, which always equals `len(buff)`) to an outcome:
success writes the buffer contents and sets `size` to the number of
UTF-16 units used; `ERROR_MORE_DATA` sets `size` to the required length;
any other error leaves the loop.  The `uint32` stores through the `&size`
pointer are reflected by reducing the closure's reported sizes `% 2^32`. -/

/-- The constant `2^32`, the range of the `uint32` size variable. -/
def U32 : Nat := 2 ^ 32

/-- Outcome of one `windows.GetComputerNameEx` OS call, given the supplied
buffer length: success (`written` = value stored into `size`, `buf` = the
buffer contents after the call), `ERROR_MORE_DATA` with the required size
stored into `size`, or any other OS error. -/
inductive OSOutcome where
  | ok (written : Nat) (buf : List Nat)
  | moreData (required : Nat)
  | fail (e : GoErr)
  deriving DecidableEq, Repr

/-- The two error shapes `getComputerNameEx` itself can produce: the
internal-consistency ("protocol") error from the size guard, and the
wrapping of any other OS error. -/
inductive GCNEErr where
  | protocol
  | osErr (e : GoErr)
  deriving DecidableEq, Repr

/-- Result of a terminated `getComputerNameEx` run: the returned string
(as UTF-16 units, empty on error), the error if any, and the number of OS
calls performed. -/
structure GCNEResult where
  value : List Nat
  error : Option GCNEErr
  calls : Nat
  deriving DecidableEq, Repr

/-- Model of `syscall.UTF16ToString`, truncated to what the claims need: the code
units of the decoded string, i.e. the buffer up to the first NUL. -/
def utf16ToString (l : List Nat) : List Nat := l.takeWhile (· ≠ 0)

/-- The `for` loop of `getComputerNameEx`, with explicit fuel.  `size` is
the current buffer size; each iteration allocates `buff` of that length
and invokes the OS call.  `none` means the fuel ran out (shown impossible
for fuel `2^32` in `getComputerNameEx_terminates`). -/
def gcneLoop (invoke : Nat → OSOutcome) : Nat → Nat → Option GCNEResult
  | _, 0 => none
  | size, fuel + 1 =>
    match invoke size with
    | .ok written buf =>
      some ⟨utf16ToString ((buf.take size).take (written % U32)), none, 1⟩
    | .moreData required =>
      if required % U32 ≤ size then
        some ⟨[], some .protocol, 1⟩
      else
        match gcneLoop invoke (required % U32) fuel with
        | some r => some ⟨r.value, r.error, r.calls + 1⟩
        | none => none
    | .fail e => some ⟨[], some (.osErr e), 1⟩

/-- The function `getComputerNameEx`: run the loop from the initial size 64 with fuel
`2^32` (an upper bound on the strictly-increasing `uint32` size). -/
def getComputerNameEx (invoke : Nat → OSOutcome) : Option GCNEResult :=
  gcneLoop invoke 64 U32

/-! ## Data model

`types.HostInfo`, `types.CPUTimes` and `types.HostMemoryInfo` live in the
`types` package, outside `src/`; their fields are modelled from the spec's
data-model table and from how `host_windows.go` assigns them.  Durations
and timestamps are modelled as `Nat`, byte counts as `Nat` carrying
`uint64` values, the `*types.OSInfo` pointer as an `Option`. -/

/-- Modelled from the spec: the structured OS descriptor
(`types.OSInfo`, package outside `src/`): name, version, build. -/
structure OSInfo where
  name : Str := []
  version : Str := []
  build : Str := []
  deriving DecidableEq, Repr

/-- Modelled from the spec: `types.HostInfo` (package outside `src/`),
restricted to the fields `host_windows.go` assigns.  Zero values: empty
string, zero time, empty slices, nil pointer. -/
structure HostInfo where
  architecture : Str := []
  bootTime : Nat := 0
  hostname : Str := []
  fqdn : Str := []
  ips : List Str := []
  macs : List Str := []
  kernelVersion : Str := []
  os : Option OSInfo := none
  timezone : Str := []
  timezoneOffsetSec : Int := 0
  uniqueID : Str := []
  deriving DecidableEq, Repr

/-- Modelled from the spec: `types.CPUTimes` (package outside `src/`):
accumulated system/user/idle durations. -/
structure CPUTimes where
  system : Nat := 0
  user : Nat := 0
  idle : Nat := 0
  deriving DecidableEq, Repr

/-- Modelled from the spec: `types.HostMemoryInfo` (package outside
`src/`): byte counts, `uint64` values. -/
structure HostMemoryInfo where
  total : Nat := 0
  used : Nat := 0
  free : Nat := 0
  available : Nat := 0
  virtualTotal : Nat := 0
  virtualUsed : Nat := 0
  virtualFree : Nat := 0
  deriving DecidableEq, Repr

/-! ## The fact aggregator: `newHost` and the `reader`

`newHost` runs nine reader steps in order; each fallible step calls one
platform query and either stores the value or hands the error to
`reader.addErr`, which drops `errors.Is(err, types.ErrNotImplemented)`
errors and appends the rest to `r.errs`.  The platform queries themselves
(`Architecture`, `BootTime`, `os.Hostname`, `getComputerNameEx`,
`shared.Network`, `KernelVersion`, `OperatingSystem`, `time.Now().Zone`,
`MachineID`) are external collaborators: one `newHost` run is determined
by their outcomes, gathered in a `Queries` record.  `time.Now().Zone()`
returns `(string, int)` with no error. -/

deriving instance DecidableEq for Except

/-- The outcomes of the platform queries for one `newHost` run. -/
structure Queries where
  architecture : Except GoErr Str
  bootTime : Except GoErr Nat
  hostname : Except GoErr Str
  fqdn : Except GoErr Str
  network : Except GoErr (List Str × List Str)
  kernelVersion : Except GoErr Str
  os : Except GoErr OSInfo
  timeZone : Str × Int
  uniqueID : Except GoErr Str
  deriving DecidableEq, Repr

/-- The reader's mutable pieces threaded through the steps: the host
record under construction and the accumulated error list. -/
abbrev RState := HostInfo × List GoErr

/-- Model of `reader.addErr`: a nil error leaves the list unchanged (returns
`false`); a non-nil error returns `true` and is appended unless
`errors.Is(err, types.ErrNotImplemented)`. -/
def addErr (errs : List GoErr) : Option GoErr → List GoErr × Bool
  | some err => (if errorsIsNotImplemented err then errs else errs ++ [err], true)
  | none => (errs, false)

/-- Step `reader.architecture`: `v, err := Architecture()`. -/
def rArchitecture (q : Queries) : RState → RState
  | (h, errs) =>
    match q.architecture with
    | .error e => (h, (addErr errs (some e)).1)
    | .ok v => ({ h with architecture := v }, errs)

/-- Step `reader.bootTime`: `v, err := BootTime()`. -/
def rBootTime (q : Queries) : RState → RState
  | (h, errs) =>
    match q.bootTime with
    | .error e => (h, (addErr errs (some e)).1)
    | .ok v => ({ h with bootTime := v }, errs)

/-- Step `reader.hostname`: `v, err := os.Hostname()`. -/
def rHostname (q : Queries) : RState → RState
  | (h, errs) =>
    match q.hostname with
    | .error e => (h, (addErr errs (some e)).1)
    | .ok v => ({ h with hostname := v }, errs)

/-- Model of `strings.HasSuffix(s, suffix)`. -/
def hasSuffix (s suffix : Str) : Bool :=
  suffix.length ≤ s.length && s.drop (s.length - suffix.length) == suffix

/-- Model of `strings.TrimSuffix(s, suffix)`: remove one trailing occurrence of
`suffix`, if present. -/
def trimSuffix (s suffix : Str) : Str :=
  if hasSuffix s suffix then s.take (s.length - suffix.length) else s

/-- Step `reader.fqdn`: on error the step re-wraps with
`fmt.Errorf("could not get windows FQDN: %s", err)` — `%s`, so the result
is a fresh leaf error whose unwrap chain is empty; on success it stores
`strings.TrimSuffix(fqdn, ".")`. -/
def rFqdn (q : Queries) : RState → RState
  | (h, errs) =>
    match q.fqdn with
    | .error e =>
      (h, (addErr errs (some (.leaf ("could not get windows FQDN: " ++ e.msg)))).1)
    | .ok v => ({ h with fqdn := trimSuffix v ['.'] }, errs)

/-- Step `reader.network`: `ips, macs, err := shared.Network()`. -/
def rNetwork (q : Queries) : RState → RState
  | (h, errs) =>
    match q.network with
    | .error e => (h, (addErr errs (some e)).1)
    | .ok v => ({ h with ips := v.1, macs := v.2 }, errs)

/-- Step `reader.kernelVersion`: `v, err := KernelVersion()`. -/
def rKernelVersion (q : Queries) : RState → RState
  | (h, errs) =>
    match q.kernelVersion with
    | .error e => (h, (addErr errs (some e)).1)
    | .ok v => ({ h with kernelVersion := v }, errs)

/-- Step `reader.os`: `v, err := OperatingSystem()`; the field is a pointer. -/
def rOS (q : Queries) : RState → RState
  | (h, errs) =>
    match q.os with
    | .error e => (h, (addErr errs (some e)).1)
    | .ok v => ({ h with os := some v }, errs)

/-- Step `reader.time`: `h.info.Timezone, h.info.TimezoneOffsetSec =
time.Now().Zone()` — no error path at all. -/
def rTime (q : Queries) : RState → RState
  | (h, errs) =>
    ({ h with timezone := q.timeZone.1, timezoneOffsetSec := q.timeZone.2 }, errs)

/-- Step `reader.uniqueID`: `v, err := MachineID()`. -/
def rUniqueID (q : Queries) : RState → RState
  | (h, errs) =>
    match q.uniqueID with
    | .error e => (h, (addErr errs (some e)).1)
    | .ok v => ({ h with uniqueID := v }, errs)

/-- Model of `reader.Err()`: a `multierror.MultiError` holding the collected list
when non-empty, nil otherwise.  The multi-error is modelled as its ordered
error list. -/
def readerErr (errs : List GoErr) : Option (List GoErr) :=
  if errs.isEmpty then none else some errs

/-- The function `newHost`: run the nine reader steps in source order on a zero `host`
and an empty error list, returning the (possibly partial) record and
`r.Err()`. -/
def newHost (q : Queries) : HostInfo × Option (List GoErr) :=
  let s := rUniqueID q (rTime q (rOS q (rKernelVersion q (rNetwork q
    (rFqdn q (rHostname q (rBootTime q (rArchitecture q ({}, [])))))))))
  (s.1, readerErr s.2)

/-! ## The host handle

`host` holds the `HostInfo` snapshot; `Info` returns it, `CPUTime` and
`Memory` are live queries that read nothing from and write nothing to the
receiver.  Each method is embedded as a function returning its result
together with the receiver's state after the call, so that frame claims
are statable. -/

/-- The `host` struct: the snapshot captured by `newHost`. -/
structure Host where
  info : HostInfo
  deriving DecidableEq, Repr

/-- Outcome of one `windows.GetSystemTimes()` call:
`(idle, kernel, user)`. -/
abbrev SystemTimes := Nat × Nat × Nat

/-- Fields of `windows.GlobalMemoryStatusEx()` that `Memory` reads, each a
`uint64` (value `< 2^64`). -/
structure MemStatus where
  totalPhys : Nat
  availPhys : Nat
  totalPageFile : Nat
  availPageFile : Nat
  deriving DecidableEq, Repr

/-- The constant `2^64`, the range of the `uint64` byte counts. -/
def U64 : Nat := 2 ^ 64

/-- Go `uint64` subtraction `a - b` (wrap-around), for `a, b < 2^64`. -/
def u64sub (a b : Nat) : Nat := (a + U64 - b % U64) % U64

/-- Method `host.Info()`: returns the stored snapshot; the receiver is
unchanged. -/
def Host.Info (h : Host) : HostInfo × Host := (h.info, h)

/-- Method `host.CPUTime()`: forwards a `windows.GetSystemTimes()` outcome
`(idle, kernel, user)` into `types.CPUTimes{System: kernel, User: user,
Idle: idle}`; the receiver is unchanged. -/
def Host.CPUTime (h : Host) (os : Except GoErr SystemTimes) :
    Except GoErr CPUTimes × Host :=
  (match os with
   | .error e => .error e
   | .ok (idle, kernel, user) => .ok { system := kernel, user := user, idle := idle },
   h)

/-- Method `host.Memory()`: forwards a `windows.GlobalMemoryStatusEx()` outcome
into `types.HostMemoryInfo` with `Used = TotalPhys - AvailPhys` and
`VirtualUsed = TotalPageFile - AvailPageFile` in `uint64` arithmetic; the
receiver is unchanged. -/
def Host.Memory (h : Host) (os : Except GoErr MemStatus) :
    Except GoErr HostMemoryInfo × Host :=
  (match os with
   | .error e => .error e
   | .ok m => .ok
      { total := m.totalPhys
        used := u64sub m.totalPhys m.availPhys
        free := m.availPhys
        available := m.availPhys
        virtualTotal := m.totalPageFile
        virtualUsed := u64sub m.totalPageFile m.availPageFile
        virtualFree := m.availPageFile },
   h)

/-- One operation on the host handle after construction, with the OS
outcome a live query observes. -/
inductive HostOp where
  | info
  | cpuTime (os : Except GoErr SystemTimes)
  | memory (os : Except GoErr MemStatus)
  deriving DecidableEq, Repr

/-- The receiver state after running one operation. -/
def applyOp (h : Host) : HostOp → Host
  | .info => (h.Info).2
  | .cpuTime os => (h.CPUTime os).2
  | .memory os => (h.Memory os).2

/-- The receiver state after running a sequence of operations. -/
def runOps (h : Host) : List HostOp → Host
  | [] => h
  | op :: ops => runOps (applyOp h op) ops

/-! ## Spec-side descriptions of one `newHost` run

The spec describes the aggregate result field-by-field: a field holds the
query's value when the query succeeded and its zero value otherwise, and
the combined error lists the non-`NotImplemented` errors in invocation
order.  These definitions restate that description directly; the
refinement theorem `newHost_meets_spec` compares them with `newHost`. -/

/-- Spec-side value of one field: the query's value (through the step's
stored form `f`) on success, the zero value on failure. -/
def fieldVal {α β : Type} (q : Except GoErr α) (f : α → β) (zero : β) : β :=
  match q with
  | .ok v => f v
  | .error _ => zero

/-- Spec-side `HostInfo` for a run: every field whose query succeeded is
populated, every other field is at its zero value; the timezone pair is
always populated. -/
def expectedInfo (q : Queries) : HostInfo where
  architecture := fieldVal q.architecture id []
  bootTime := fieldVal q.bootTime id 0
  hostname := fieldVal q.hostname id []
  fqdn := fieldVal q.fqdn (fun v => trimSuffix v ['.']) []
  ips := fieldVal q.network Prod.fst []
  macs := fieldVal q.network Prod.snd []
  kernelVersion := fieldVal q.kernelVersion id []
  os := fieldVal q.os some none
  timezone := q.timeZone.1
  timezoneOffsetSec := q.timeZone.2
  uniqueID := fieldVal q.uniqueID id []

/-- Spec-side error contribution of one query that hands its error
directly to `addErr`: nothing on success or `NotImplemented`, the error
itself otherwise. -/
def queryErr {α : Type} : Except GoErr α → List GoErr
  | .error e => if errorsIsNotImplemented e then [] else [e]
  | .ok _ => []

/-- Spec-side error contribution of the fqdn step: its error is rewrapped
with `fmt.Errorf("could not get windows FQDN: %s", err)` into a leaf
before classification, so a failure always contributes. -/
def fqdnQueryErr : Except GoErr Str → List GoErr
  | .error e => [.leaf ("could not get windows FQDN: " ++ e.msg)]
  | .ok _ => []

/-- Spec-side combined error list: the errors of the failing queries, in
invocation order (the timezone step contributes nothing). -/
def expectedErrors (q : Queries) : List GoErr :=
  queryErr q.architecture ++ queryErr q.bootTime ++ queryErr q.hostname ++
    fqdnQueryErr q.fqdn ++ queryErr q.network ++ queryErr q.kernelVersion ++
    queryErr q.os ++ queryErr q.uniqueID

/-- A query outcome that is either a success or an
`errors.Is(err, types.ErrNotImplemented)` failure. -/
def succeedsOrNI {α : Type} : Except GoErr α → Prop
  | .ok _ => True
  | .error e => errorsIsNotImplemented e = true

/-- A fixture run in which every platform query succeeds. -/
def qAllOk : Queries where
  architecture := .ok ['x']
  bootTime := .ok 1
  hostname := .ok ['h']
  fqdn := .ok ['f']
  network := .ok ([], [])
  kernelVersion := .ok ['k']
  os := .ok {}
  timeZone := (['U', 'T', 'C'], 0)
  uniqueID := .ok ['u']

/-! ## Step lemmas for the reader -/

theorem rArchitecture_eq (q : Queries) (h : HostInfo) (errs : List GoErr) :
    rArchitecture q (h, errs) =
      ({ h with architecture := fieldVal q.architecture id h.architecture },
        errs ++ queryErr q.architecture) := by
  cases hq : q.architecture with
  | ok v => simp [rArchitecture, fieldVal, queryErr, hq]
  | error e =>
    simp only [rArchitecture, fieldVal, queryErr, addErr, hq]
    split <;> simp

theorem rBootTime_eq (q : Queries) (h : HostInfo) (errs : List GoErr) :
    rBootTime q (h, errs) =
      ({ h with bootTime := fieldVal q.bootTime id h.bootTime },
        errs ++ queryErr q.bootTime) := by
  cases hq : q.bootTime with
  | ok v => simp [rBootTime, fieldVal, queryErr, hq]
  | error e =>
    simp only [rBootTime, fieldVal, queryErr, addErr, hq]
    split <;> simp

theorem rHostname_eq (q : Queries) (h : HostInfo) (errs : List GoErr) :
    rHostname q (h, errs) =
      ({ h with hostname := fieldVal q.hostname id h.hostname },
        errs ++ queryErr q.hostname) := by
  cases hq : q.hostname with
  | ok v => simp [rHostname, fieldVal, queryErr, hq]
  | error e =>
    simp only [rHostname, fieldVal, queryErr, addErr, hq]
    split <;> simp

theorem rFqdn_eq (q : Queries) (h : HostInfo) (errs : List GoErr) :
    rFqdn q (h, errs) =
      ({ h with fqdn := fieldVal q.fqdn (fun v => trimSuffix v ['.']) h.fqdn },
        errs ++ fqdnQueryErr q.fqdn) := by
  cases hq : q.fqdn with
  | ok v => simp [rFqdn, fieldVal, fqdnQueryErr, hq]
  | error e => simp [rFqdn, fieldVal, fqdnQueryErr, addErr, errorsIsNotImplemented, hq]

theorem rNetwork_eq (q : Queries) (h : HostInfo) (errs : List GoErr) :
    rNetwork q (h, errs) =
      ({ h with ips := fieldVal q.network Prod.fst h.ips,
                macs := fieldVal q.network Prod.snd h.macs },
        errs ++ queryErr q.network) := by
  cases hq : q.network with
  | ok v => simp [rNetwork, fieldVal, queryErr, hq]
  | error e =>
    simp only [rNetwork, fieldVal, queryErr, addErr, hq]
    split <;> simp

theorem rKernelVersion_eq (q : Queries) (h : HostInfo) (errs : List GoErr) :
    rKernelVersion q (h, errs) =
      ({ h with kernelVersion := fieldVal q.kernelVersion id h.kernelVersion },
        errs ++ queryErr q.kernelVersion) := by
  cases hq : q.kernelVersion with
  | ok v => simp [rKernelVersion, fieldVal, queryErr, hq]
  | error e =>
    simp only [rKernelVersion, fieldVal, queryErr, addErr, hq]
    split <;> simp

theorem rOS_eq (q : Queries) (h : HostInfo) (errs : List GoErr) :
    rOS q (h, errs) =
      ({ h with os := fieldVal q.os some h.os }, errs ++ queryErr q.os) := by
  cases hq : q.os with
  | ok v => simp [rOS, fieldVal, queryErr, hq]
  | error e =>
    simp only [rOS, fieldVal, queryErr, addErr, hq]
    split <;> simp

theorem rTime_eq (q : Queries) (h : HostInfo) (errs : List GoErr) :
    rTime q (h, errs) =
      ({ h with timezone := q.timeZone.1, timezoneOffsetSec := q.timeZone.2 },
        errs) := rfl

theorem rUniqueID_eq (q : Queries) (h : HostInfo) (errs : List GoErr) :
    rUniqueID q (h, errs) =
      ({ h with uniqueID := fieldVal q.uniqueID id h.uniqueID },
        errs ++ queryErr q.uniqueID) := by
  cases hq : q.uniqueID with
  | ok v => simp [rUniqueID, fieldVal, queryErr, hq]
  | error e =>
    simp only [rUniqueID, fieldVal, queryErr, addErr, hq]
    split <;> simp

/-- The nine-step chain, flattened: the record is the spec-side record and
the error list is the spec-side list. -/
theorem newHostState_eq (q : Queries) :
    rUniqueID q (rTime q (rOS q (rKernelVersion q (rNetwork q
      (rFqdn q (rHostname q (rBootTime q (rArchitecture q ({}, []))))))))) =
      (expectedInfo q, expectedErrors q) := by
  rw [rArchitecture_eq, rBootTime_eq, rHostname_eq, rFqdn_eq, rNetwork_eq,
    rKernelVersion_eq, rOS_eq, rTime_eq, rUniqueID_eq]
  simp [expectedInfo, expectedErrors, List.append_assoc]

theorem newHost_fst (q : Queries) : (newHost q).1 = expectedInfo q := by
  simp [newHost, newHostState_eq]

theorem newHost_snd (q : Queries) :
    (newHost q).2 = readerErr (expectedErrors q) := by
  simp [newHost, newHostState_eq]

/-- C1: for every outcome of the fact queries run by `newHost`, every
`HostInfo` field whose query succeeded holds the stored value, every field
whose query failed holds its zero value, the partially-assembled record is
returned in every case, and the returned error is the multi-error listing
exactly the collected errors of the failing queries in invocation order
(`none` when no query failed). -/
theorem newHost_meets_spec (q : Queries) :
    newHost q = (expectedInfo q,
      if expectedErrors q = [] then none else some (expectedErrors q)) := by
  rw [Prod.ext_iff]
  refine ⟨newHost_fst q, ?_⟩
  rw [newHost_snd q]
  simp [readerErr, List.isEmpty_iff]

/-- C9: the timezone step cannot fail: whatever pair `time.Now().Zone()`
reports is stored unconditionally in both timezone fields, and the
combined error of `newHost` is independent of it — the timezone step never
appends to the reader's error list. -/
theorem time_step_infallible (q : Queries) (tz : Str) (off : Int) :
    (newHost { q with timeZone := (tz, off) }).1.timezone = tz ∧
      (newHost { q with timeZone := (tz, off) }).1.timezoneOffsetSec = off ∧
      (newHost { q with timeZone := (tz, off) }).2 = (newHost q).2 := by
  refine ⟨?_, ?_, ?_⟩
  · rw [newHost_fst]; rfl
  · rw [newHost_fst]; rfl
  · rw [newHost_snd, newHost_snd]; rfl

/-- C2, counterexample: when the FQDN query is the only failing query and
fails with `types.ErrNotImplemented` itself (so `errors.Is(err,
types.ErrNotImplemented)` holds for the query's error), `newHost` does
*not* return a nil error: `reader.fqdn` re-wraps the error with
`fmt.Errorf("...: %s", err)`, which starts a fresh unwrap chain, so the
re-wrapped error fails the `errors.Is` test in `addErr` and is surfaced in
the combined error. -/
theorem fqdn_notImplemented_surfaced_cex :
    (newHost { qAllOk with fqdn := .error .notImplemented }).2 =
      some [.leaf "could not get windows FQDN: unimplemented"] := by
  decide

/-- Elements contributed by a direct-to-`addErr` step are never
`NotImplemented`-classified. -/
theorem queryErr_not_NI {α : Type} (x : Except GoErr α) (e : GoErr)
    (he : e ∈ queryErr x) : errorsIsNotImplemented e = false := by
  cases x with
  | ok v => simp [queryErr] at he
  | error f =>
    simp only [queryErr] at he
    by_cases hni : errorsIsNotImplemented f = true
    · simp [hni] at he
    · rw [if_neg hni, List.mem_singleton] at he
      subst he
      exact Bool.not_eq_true _ ▸ Bool.eq_false_iff.mpr hni

/-- Elements contributed by the fqdn step are fresh leaves, never
`NotImplemented`-classified. -/
theorem fqdnQueryErr_not_NI (x : Except GoErr Str) (e : GoErr)
    (he : e ∈ fqdnQueryErr x) : errorsIsNotImplemented e = false := by
  cases x with
  | ok v => simp [fqdnQueryErr] at he
  | error f =>
    rw [fqdnQueryErr, List.mem_singleton] at he
    subst he
    rfl

/-- The element list of `reader.Err()` is the collected list. -/
theorem readerErr_getD (l : List GoErr) : (readerErr l).getD [] = l := by
  rw [readerErr]
  split
  · next hc => rw [List.isEmpty_iff] at hc; simp [hc]
  · rfl

/-- C2, amended: in every run, for the eight steps that hand their
query's error directly to `addErr` (all but the fqdn step), an
`errors.Is(err, types.ErrNotImplemented)` failure is suppressed: no
element of the combined error is `NotImplemented`-classified — so such an
error is never included, whatever the other queries do — the field of any
failing query stays at its zero value, and when every failure is of this
kind and the FQDN query does not fail, `newHost` returns a nil overall
error.  (The fqdn step is the exception: its `%s` re-wrap defeats the
classification and surfaces a fresh non-`NotImplemented` leaf, see the
counterexample.) -/
theorem notImplemented_suppressed (q : Queries) :
    (∀ e ∈ ((newHost q).2.getD []), errorsIsNotImplemented e = false) ∧
      (∀ e, q.architecture = .error e → (newHost q).1.architecture = []) ∧
      (∀ e, q.bootTime = .error e → (newHost q).1.bootTime = 0) ∧
      (∀ e, q.hostname = .error e → (newHost q).1.hostname = []) ∧
      (∀ e, q.network = .error e →
        (newHost q).1.ips = [] ∧ (newHost q).1.macs = []) ∧
      (∀ e, q.kernelVersion = .error e → (newHost q).1.kernelVersion = []) ∧
      (∀ e, q.os = .error e → (newHost q).1.os = none) ∧
      (∀ e, q.uniqueID = .error e → (newHost q).1.uniqueID = []) ∧
      ((succeedsOrNI q.architecture ∧ succeedsOrNI q.bootTime ∧
          succeedsOrNI q.hostname ∧ (∃ v, q.fqdn = .ok v) ∧
          succeedsOrNI q.network ∧ succeedsOrNI q.kernelVersion ∧
          succeedsOrNI q.os ∧ succeedsOrNI q.uniqueID) →
        (newHost q).2 = none) := by
  refine ⟨?_, ?_, ?_, ?_, ?_, ?_, ?_, ?_, ?_⟩
  · intro e he
    rw [newHost_snd, readerErr_getD] at he
    simp only [expectedErrors, List.mem_append] at he
    rcases he with ((((((h | h) | h) | h) | h) | h) | h) | h
    · exact queryErr_not_NI q.architecture e h
    · exact queryErr_not_NI q.bootTime e h
    · exact queryErr_not_NI q.hostname e h
    · exact fqdnQueryErr_not_NI q.fqdn e h
    · exact queryErr_not_NI q.network e h
    · exact queryErr_not_NI q.kernelVersion e h
    · exact queryErr_not_NI q.os e h
    · exact queryErr_not_NI q.uniqueID e h
  · intro e he; rw [newHost_fst]; simp [expectedInfo, fieldVal, he]
  · intro e he; rw [newHost_fst]; simp [expectedInfo, fieldVal, he]
  · intro e he; rw [newHost_fst]; simp [expectedInfo, fieldVal, he]
  · intro e he; rw [newHost_fst]; exact ⟨by simp [expectedInfo, fieldVal, he],
      by simp [expectedInfo, fieldVal, he]⟩
  · intro e he; rw [newHost_fst]; simp [expectedInfo, fieldVal, he]
  · intro e he; rw [newHost_fst]; simp [expectedInfo, fieldVal, he]
  · intro e he; rw [newHost_fst]; simp [expectedInfo, fieldVal, he]
  · rintro ⟨ha, hb, hh, ⟨v, hf⟩, hn, hk, ho, hu⟩
    have hq : ∀ (α : Type) (x : Except GoErr α), succeedsOrNI x →
        queryErr x = [] := by
      intro α x hx
      cases x with
      | ok _ => rfl
      | error e => simp [queryErr, succeedsOrNI] at hx ⊢; simp [hx]
    rw [newHost_snd]
    simp [readerErr, expectedErrors, hq _ _ ha, hq _ _ hb, hq _ _ hh,
      hq _ _ hn, hq _ _ hk, hq _ _ ho, hq _ _ hu, hf, fqdnQueryErr]

/-- Witness for `notImplemented_suppressed`: a run where the architecture
query is the only failure and fails with the sentinel — the result has a
nil combined error and a zero architecture field. -/
theorem notImplemented_suppressed_witness :
    (newHost { qAllOk with architecture := .error .notImplemented }).2 = none ∧
      (newHost { qAllOk with architecture := .error .notImplemented
        }).1.architecture = [] := by
  have h := notImplemented_suppressed
    { qAllOk with architecture := .error .notImplemented }
  refine ⟨h.2.2.2.2.2.2.2.2 ⟨?_, ?_, ?_, ⟨['f'], rfl⟩, ?_, ?_, ?_, ?_⟩,
    h.2.1 .notImplemented rfl⟩
  all_goals simp [succeedsOrNI, qAllOk, errorsIsNotImplemented]

/-! ## The fqdn trailing dot -/

/-- The function `strings.HasSuffix` decides the suffix relation. -/
theorem hasSuffix_eq_true_iff (s suffix : Str) :
    hasSuffix s suffix = true ↔ suffix <:+ s := by
  constructor
  · intro hc
    simp only [hasSuffix, Bool.and_eq_true, decide_eq_true_eq, beq_iff_eq] at hc
    exact (List.suffix_iff_eq_drop).mpr hc.2.symm
  · intro hs
    simp only [hasSuffix, Bool.and_eq_true, decide_eq_true_eq, beq_iff_eq]
    exact ⟨hs.length_le, ((List.suffix_iff_eq_drop).mp hs).symm⟩

/-- Removing one trailing `"."` with `strings.TrimSuffix` leaves no
trailing `"."` — provided the input did not end in two dots. -/
theorem trimSuffix_dot_not_suffix (v : Str) (hdd : ¬ ['.', '.'] <:+ v) :
    ¬ ['.'] <:+ trimSuffix v ['.'] := by
  by_cases hs : ['.'] <:+ v
  · obtain ⟨t, rfl⟩ := hs
    rw [trimSuffix, if_pos ((hasSuffix_eq_true_iff _ _).mpr ⟨t, rfl⟩)]
    have hlen : (t ++ ['.']).length - (['.'] : Str).length = t.length := by simp
    rw [hlen, List.take_left]
    rintro ⟨u, rfl⟩
    exact hdd ⟨u, by simp⟩
  · rw [trimSuffix, if_neg (fun hc => hs ((hasSuffix_eq_true_iff _ _).mp hc))]
    exact hs

/-- C7, counterexample: when the OS FQDN query returns a value ending in
two dots, the stored FQDN field still ends with a trailing dot —
`strings.TrimSuffix` removes only one occurrence. -/
theorem fqdn_trailing_dot_cex :
    hasSuffix (newHost { qAllOk with fqdn := .ok ['a', '.', '.'] }).1.fqdn
      ['.'] = true := by
  decide

/-- C7, amended: for every OS-returned FQDN value that does not end in two
consecutive dots, the FQDN field stored in `HostInfo` does not end with a
trailing dot. -/
theorem fqdn_no_trailing_dot (q : Queries) (v : Str)
    (hf : q.fqdn = .ok v) (hdd : hasSuffix v ['.', '.'] = false) :
    hasSuffix (newHost q).1.fqdn ['.'] = false := by
  rw [newHost_fst]
  simp only [expectedInfo, fieldVal, hf]
  rw [Bool.eq_false_iff]
  intro hc
  refine trimSuffix_dot_not_suffix v ?_ ((hasSuffix_eq_true_iff _ _).mp hc)
  intro hs
  rw [(hasSuffix_eq_true_iff _ _).mpr hs] at hdd
  exact absurd hdd (by simp)

/-- Witness for `fqdn_no_trailing_dot`: input ending in exactly one dot. -/
theorem fqdn_no_trailing_dot_witness :
    hasSuffix (newHost { qAllOk with fqdn := .ok ['a', '.'] }).1.fqdn
      ['.'] = false :=
  fqdn_no_trailing_dot _ ['a', '.'] rfl (by decide)

/-! ## The host handle -/

theorem applyOp_preserves (h : Host) (op : HostOp) : applyOp h op = h := by
  cases op <;> rfl

theorem runOps_preserves (ops : List HostOp) (h : Host) : runOps h ops = h := by
  induction ops with
  | nil => rfl
  | cons op ops ih => rw [runOps, applyOp_preserves]; exact ih

/-- C8: `Info()` has no error path, and no sequence of `Info`, `CPUTime`
and `Memory` calls — whatever their OS outcomes — changes the receiver:
`Info()` always returns the `HostInfo` snapshot captured when `newHost`
ran. -/
theorem host_info_immutable (q : Queries) (ops : List HostOp) :
    runOps ⟨(newHost q).1⟩ ops = ⟨(newHost q).1⟩ ∧
      (runOps ⟨(newHost q).1⟩ ops).Info.1 = (newHost q).1 := by
  refine ⟨runOps_preserves ops _, ?_⟩
  rw [runOps_preserves ops _]
  rfl

/-! ## The memory accessor -/

/-- C6: every successful `Memory()` result satisfies
`Used = Total - Free` and `VirtualUsed = VirtualTotal - VirtualFree` in
unsigned 64-bit (mod `2^64`) arithmetic, for arbitrary values reported by
`GlobalMemoryStatusEx`. -/
theorem memory_used_identity (h : Host) (m : MemStatus) (info : HostMemoryInfo)
    (hres : (Host.Memory h (.ok m)).1 = .ok info) :
    info.used = u64sub info.total info.free ∧
      info.virtualUsed = u64sub info.virtualTotal info.virtualFree := by
  simp only [Host.Memory, Except.ok.injEq] at hres
  subst hres
  exact ⟨rfl, rfl⟩

/-- Witness for `memory_used_identity` at total=16, free=4 (physical) and
total=10, free=4 (page file). -/
theorem memory_used_identity_witness :
    ({ total := 16, used := 12, free := 4, available := 4, virtualTotal := 10,
        virtualUsed := 6, virtualFree := 4 } : HostMemoryInfo).used =
      u64sub 16 4 ∧
      ({ total := 16, used := 12, free := 4, available := 4, virtualTotal := 10,
          virtualUsed := 6, virtualFree := 4 } : HostMemoryInfo).virtualUsed =
        u64sub 10 4 :=
  memory_used_identity ⟨{}⟩ ⟨16, 4, 10, 4⟩ _ (by decide)

/-- C10: every successful `Memory()` result has `Available = Free` — both
are assigned the same OS-reported `AvailPhys` value. -/
theorem memory_available_eq_free (h : Host) (m : MemStatus)
    (info : HostMemoryInfo)
    (hres : (Host.Memory h (.ok m)).1 = .ok info) :
    info.available = info.free := by
  simp only [Host.Memory, Except.ok.injEq] at hres
  subst hres
  rfl

/-- Witness for `memory_available_eq_free`. -/
theorem memory_available_eq_free_witness :
    ({ total := 16, used := 12, free := 4, available := 4, virtualTotal := 10,
        virtualUsed := 6, virtualFree := 4 } : HostMemoryInfo).available =
      ({ total := 16, used := 12, free := 4, available := 4, virtualTotal := 10,
          virtualUsed := 6, virtualFree := 4 } : HostMemoryInfo).free :=
  memory_available_eq_free ⟨{}⟩ ⟨16, 4, 10, 4⟩ _ (by decide)

/-! ## The growing-buffer caller -/

/-- The loop always terminates within the fuel: a retry happens only when
the reported `uint32` required size strictly exceeds the current buffer
length, so the size strictly increases while staying below `2^32`. -/
theorem gcneLoop_ne_none (invoke : Nat → OSOutcome) :
    ∀ (fuel size : Nat), U32 - size < fuel → gcneLoop invoke size fuel ≠ none := by
  intro fuel
  induction fuel with
  | zero => intro size h; omega
  | succ n ih =>
    intro size _h
    rw [gcneLoop]
    cases hi : invoke size with
    | ok w b => simp
    | moreData req =>
      simp only
      by_cases hle : req % U32 ≤ size
      · rw [if_pos hle]; simp
      · rw [if_neg hle]
        have h1 : req % U32 < U32 := Nat.mod_lt _ (by norm_num [U32])
        have h2 := ih (req % U32) (by omega)
        cases hg : gcneLoop invoke (req % U32) n with
        | none => exact absurd hg h2
        | some r => simp
    | fail e => simp

/-- C5: `getComputerNameEx` terminates for every possible behavior of the
OS call: run with fuel `2^32`, the loop always produces a result — it
never exhausts the fuel, because each retry strictly increases the
`uint32` size. -/
theorem getComputerNameEx_terminates (invoke : Nat → OSOutcome) :
    getComputerNameEx invoke ≠ none :=
  gcneLoop_ne_none invoke U32 64 (by norm_num [U32])

/-- C3: if, on any iteration, the OS call fails with `ERROR_MORE_DATA`
while reporting a required size that is not strictly larger than the
supplied buffer length, the loop returns the internal-consistency error
immediately, with the empty string, after that one OS call — no further
calls are performed; in particular, when this happens on the first call,
`getComputerNameEx` itself returns that result. -/
theorem getComputerNameEx_protocol_guard (invoke : Nat → OSOutcome)
    (size fuel req : Nat) (hi : invoke size = .moreData req)
    (hle : req % U32 ≤ size) (hf : 0 < fuel) :
    gcneLoop invoke size fuel = some ⟨[], some .protocol, 1⟩ ∧
      (size = 64 → getComputerNameEx invoke = some ⟨[], some .protocol, 1⟩) := by
  have main : ∀ f, gcneLoop invoke size (f + 1) = some ⟨[], some .protocol, 1⟩ := by
    intro f
    rw [gcneLoop, hi]
    simp [hle]
  obtain ⟨f, rfl⟩ : ∃ f, fuel = f + 1 := ⟨fuel - 1, by omega⟩
  refine ⟨main f, ?_⟩
  rintro rfl
  rw [getComputerNameEx, show U32 = (U32 - 1) + 1 by norm_num [U32]]
  exact main _

/-- Witness for `getComputerNameEx_protocol_guard`: an OS call that claims
to need 10 units while 64 were supplied. -/
theorem getComputerNameEx_protocol_guard_witness :
    gcneLoop (fun _ => .moreData 10) 64 1 = some ⟨[], some .protocol, 1⟩ ∧
      (64 = 64 → getComputerNameEx (fun _ => .moreData 10) =
        some ⟨[], some .protocol, 1⟩) :=
  getComputerNameEx_protocol_guard _ 64 1 10 rfl (by decide) (by decide)

/-- C4: against a well-behaved OS call — `ERROR_MORE_DATA` reporting the
true required size `S > 64` whenever the supplied buffer is shorter than
`S`, success writing the NUL-free string `data` whenever it is at least
`S` — `getComputerNameEx` returns the correctly decoded string using 2 OS
calls, within the spec's bound of `⌈log2(S/64)⌉ + 1` calls. -/
theorem getComputerNameEx_wellBehaved (S : Nat) (data : List Nat)
    (invoke : Nat → OSOutcome) (hS : 64 < S) (hSU : S < U32)
    (hlen : data.length ≤ S) (hz : 0 ∉ data)
    (hlo : ∀ n, n < S → invoke n = .moreData S)
    (hhi : ∀ n, S ≤ n → invoke n = .ok data.length data) :
    getComputerNameEx invoke = some ⟨data, none, 2⟩ ∧
      2 ≤ Nat.clog 2 ((S + 63) / 64) + 1 := by
  constructor
  · have hsecond : ∀ f, gcneLoop invoke S (f + 1) = some ⟨data, none, 1⟩ := by
      intro f
      rw [gcneLoop, hhi S le_rfl]
      simp only
      rw [List.take_of_length_le hlen,
        Nat.mod_eq_of_lt (lt_of_le_of_lt hlen hSU), List.take_length,
        utf16ToString, List.takeWhile_eq_self_iff.mpr]
      intro x hx
      simp only [decide_eq_true_eq]
      intro h0
      exact hz (h0 ▸ hx)
    rw [getComputerNameEx, show U32 = (U32 - 2 + 1) + 1 by norm_num [U32],
      gcneLoop, hlo 64 (by omega)]
    simp only
    rw [Nat.mod_eq_of_lt hSU, if_neg (by omega), hsecond (U32 - 2)]
  · have h2 : 2 ≤ (S + 63) / 64 := by omega
    have h3 := Nat.clog_pos (b := 2) (n := (S + 63) / 64) (by norm_num) h2
    omega

/-- Witness for `getComputerNameEx_wellBehaved`: required size 100,
string `[104, 105]`. -/
theorem getComputerNameEx_wellBehaved_witness :
    getComputerNameEx
        (fun n => if n < 100 then .moreData 100 else .ok 2 [104, 105]) =
      some ⟨[104, 105], none, 2⟩ ∧
      2 ≤ Nat.clog 2 ((100 + 63) / 64) + 1 :=
  getComputerNameEx_wellBehaved 100 [104, 105]
    (fun n => if n < 100 then .moreData 100 else .ok 2 [104, 105])
    (by norm_num) (by norm_num [U32]) (by decide) (by decide)
    (fun n hn => by simp [hn])
    (fun n hn => by simp [Nat.not_lt.mpr hn])

end GoSysinfo
